import Mathlib

/-!
# War Room state store — shallow embedding and verification

This file embeds the War Room state-and-map subsystem of the repository in
Lean 4 and settles the specification's claims about it.

Embedding conventions:
* JS numbers are modelled as `ℚ` where the code only manipulates finite
  values; where the code distinguishes non-finite values (the coordinate
  validity check and the centre-of-gravity division) a dedicated `JsNum`
  type with explicit `nan` / `inf` / `neginf` constructors is used.
* JS `x || 1` on a numeric field is `jsOr1` (`0` is the only falsy rational);
  JS `s || t` on strings treats `""` as falsy; optional (possibly
  `undefined`) fields are `Option`.
* `Math.round` is `⌊x + 1/2⌋` (halves round toward `+∞`, as in JS).
* `Array.prototype.sort` with the timestamp comparator is modelled by a
  stable insertion sort (modern JS engines guarantee a stable sort, and a
  stable sort with a fixed total comparator has a unique result).
* The reactive store's signals are gathered into one `ServiceState` record;
  every mutation method of `WarRoomService` becomes a pure state
  transformer.  The entity record types (`FactoryLocation`, …) are
  reconstructed from their uses in `war-room.service.ts` (the interface
  file itself lies outside the provided sources); only fields the embedded
  operations read or write are carried.
-/

namespace WarRoom

/-- A JavaScript number as far as the store's coordinate logic observes it:
either a finite value (modelled exactly as a rational) or one of the
non-finite values `NaN`, `Infinity`, `-Infinity`. -/
inductive JsNum where
  | fin (q : ℚ)
  | nan
  | inf
  | neginf
  deriving DecidableEq, Repr

/-- Embeds `Number.isFinite`. -/
def JsNum.isFinite : JsNum → Bool
  | .fin _ => true
  | _ => false

/-- Finite part of a `JsNum` (`0` on the non-finite values; only applied to
values already checked to be finite). -/
def JsNum.finPart : JsNum → ℚ
  | .fin q => q
  | _ => 0

/-- JS division of two finite numbers: `a / 0` is `NaN` for `a = 0` and a
signed infinity otherwise. -/
def jsDiv (a b : ℚ) : JsNum :=
  if b = 0 then (if a = 0 then .nan else if a > 0 then .inf else .neginf)
  else .fin (a / b)

/-- JS `x || 1` on a number: `0` (the only falsy rational) becomes `1`. -/
def jsOr1 (q : ℚ) : ℚ := if q = 0 then 1 else q

/-- Embeds `Math.round(x * 10) / 10`: round to one decimal place, halves toward
`+∞`, as in `computeMetricsFromFactories` / `computeMetricsFromSubsidiaries`. -/
def jsRound10 (q : ℚ) : ℚ := ((⌊q * 10 + 1/2⌋ : ℤ) : ℚ) / 10

/-- JS truthiness of a possibly-`undefined` string (`""` is falsy). -/
def strTruthy : Option String → Bool
  | none => false
  | some s => !(s == "")

/-- JS `a || b` where `a` is a possibly-`undefined` string and `b` a string. -/
def jsOrStr (a : Option String) (b : String) : String :=
  match a with
  | some s => if s == "" then b else s
  | none => b

/-- JS `a || b` on two possibly-`undefined` strings. -/
def jsOrOpt (a b : Option String) : Option String :=
  match a with
  | some s => if s == "" then b else some s
  | none => b

/-- JS `a || undefined` on a possibly-`undefined` string: `""` collapses to
`undefined`. -/
def jsStrOpt (a : Option String) : Option String :=
  if strTruthy a then a else none

/-- A latitude/longitude pair (`{ latitude, longitude }`). -/
structure Coordinates where
  latitude : JsNum
  longitude : JsNum
  deriving DecidableEq, Repr

/-- Embeds `Hub` — `{ code, status }`, owned by a subsidiary. -/
structure Hub where
  code : String
  status : String
  deriving DecidableEq, Repr

/-- Aggregate metrics carried by `ParentGroup` and `SubsidiaryCompany`. -/
structure Metrics where
  assetCount : ℚ
  incidentCount : ℚ
  syncStability : ℚ
  deriving DecidableEq, Repr

/-- Embeds `FactoryLocation`, with the fields `war-room.service.ts` reads/writes. -/
structure FactoryLocation where
  id : String
  parentGroupId : String
  subsidiaryId : String
  name : String
  city : String
  country : String
  description : String
  coordinates : Coordinates
  assets : ℚ
  incidents : ℚ
  syncStability : ℚ
  status : String
  deriving DecidableEq, Repr

/-- Embeds `SubsidiaryCompany`. -/
structure SubsidiaryCompany where
  id : String
  parentGroupId : String
  name : String
  location : String
  description : String
  status : String
  hubs : List Hub
  factories : List FactoryLocation
  metrics : Metrics
  deriving DecidableEq, Repr

/-- Embeds `ParentGroup`. -/
structure ParentGroup where
  id : String
  name : String
  status : String
  subsidiaries : List SubsidiaryCompany
  metrics : Metrics
  deriving DecidableEq, Repr

/-- The three hierarchy levels; also the value space of `MapViewMode`. -/
inductive Level where
  | parent
  | subsidiary
  | factory
  deriving DecidableEq, Repr

/-- Embeds `FleetSelection` — the level tag, the selected id, and optional ancestor
ids. -/
structure FleetSelection where
  level : Level
  id : String
  parentGroupId : Option String
  subsidiaryId : Option String
  factoryId : Option String
  deriving DecidableEq, Repr

/-- An activity-log timestamp: the service accepts both ISO strings and
date objects (`typeof a.timestamp === 'string' ? new Date(...) : ...`);
a date object is identified with its millisecond epoch value. -/
inductive Timestamp where
  | str (s : String)
  | date (millis : ℤ)
  deriving DecidableEq, Repr

/-- Embeds `ActivityLog`, with the fields the service reads/writes
(`factoryId`, `subsidiaryId`, `timestamp`, `description`, `location`). -/
structure ActivityLog where
  id : String
  factoryId : String
  subsidiaryId : Option String
  timestamp : Timestamp
  description : String
  location : String
  deriving DecidableEq, Repr

/-- Embeds `TransitRoute` (opaque to the claims under study; carried for frame
conditions). -/
structure TransitRoute where
  id : String
  source : String
  dest : String
  deriving DecidableEq, Repr

/-- Embeds `NetworkMetrics`. -/
structure NetworkMetrics where
  dataFlowIntegrity : ℚ
  fleetSyncRate : ℚ
  networkLatency : ℚ
  nodeDensity : ℚ
  encryptionProtocol : String
  encryptionStatus : String
  deriving DecidableEq, Repr

/-- Embeds `NetworkThroughput`. -/
structure NetworkThroughput where
  bars : List ℚ
  channelStatus : String
  throughput : String
  deriving DecidableEq, Repr

/-- The store's signal contents relevant to the claims: one record instead
of the service's individual signals. -/
structure ServiceState where
  parentGroups : List ParentGroup
  transitRoutes : List TransitRoute
  activityLogs : List ActivityLog
  networkMetrics : Option NetworkMetrics
  networkThroughput : Option NetworkThroughput
  mapViewMode : Level
  selectedEntity : Option FleetSelection
  factoryFilterSubsidiaryId : Option String
  deriving DecidableEq, Repr

/-- Embeds `subsidiaries` computed signal: every subsidiary of every parent group. -/
def subsidiariesOf (groups : List ParentGroup) : List SubsidiaryCompany :=
  groups.flatMap (·.subsidiaries)

/-- Embeds `factories` computed signal: every factory of every subsidiary. -/
def factoriesOf (groups : List ParentGroup) : List FactoryLocation :=
  (subsidiariesOf groups).flatMap (·.factories)

/-- Embeds `isValidCoordinates`: present, both components finite, and not the
"unset" origin `(0, 0)`. -/
def isValidCoordinates : Option Coordinates → Bool
  | none => false
  | some c =>
    if !(c.latitude.isFinite) || !(c.longitude.isFinite) then false
    else if decide (c.latitude = .fin 0) && decide (c.longitude = .fin 0) then false
    else true

/-- Embeds `computeCenterOfGravity`: asset-weighted centroid of the factories with
valid coordinates, `{ latitude: NaN, longitude: NaN }` when there are none. -/
def computeCenterOfGravity (factories : List FactoryLocation) : Coordinates :=
  let validFactories := factories.filter (fun f => isValidCoordinates (some f.coordinates))
  if validFactories.isEmpty then { latitude := .nan, longitude := .nan }
  else
    let totalWeight := validFactories.foldl (fun sum f => sum + jsOr1 f.assets) 0
    let weightedLat := validFactories.foldl
      (fun sum f => sum + f.coordinates.latitude.finPart * jsOr1 f.assets) 0
    let weightedLng := validFactories.foldl
      (fun sum f => sum + f.coordinates.longitude.finPart * jsOr1 f.assets) 0
    { latitude := jsDiv weightedLat totalWeight
      longitude := jsDiv weightedLng totalWeight }

/-- Embeds `computeMetricsFromFactories`: plain sums for assets/incidents and an
asset-weighted (minimum weight 1) average for sync stability, rounded to
one decimal. -/
def computeMetricsFromFactories (factories : List FactoryLocation) : Metrics :=
  let assetCount := factories.foldl (fun sum f => sum + f.assets) 0
  let incidentCount := factories.foldl (fun sum f => sum + f.incidents) 0
  let totalWeight := factories.foldl (fun sum f => sum + jsOr1 f.assets) 0
  let weightedSync := factories.foldl (fun sum f => sum + f.syncStability * jsOr1 f.assets) 0
  let syncStability := if totalWeight > 0 then jsRound10 (weightedSync / totalWeight) else 0
  { assetCount := assetCount, incidentCount := incidentCount, syncStability := syncStability }

/-- Embeds `computeMetricsFromSubsidiaries`: the same aggregation one level up,
over the subsidiaries' stored metrics. -/
def computeMetricsFromSubsidiaries (subsidiaries : List SubsidiaryCompany) : Metrics :=
  let assetCount := subsidiaries.foldl (fun sum s => sum + s.metrics.assetCount) 0
  let incidentCount := subsidiaries.foldl (fun sum s => sum + s.metrics.incidentCount) 0
  let totalWeight := subsidiaries.foldl (fun sum s => sum + jsOr1 s.metrics.assetCount) 0
  let weightedSync := subsidiaries.foldl
    (fun sum s => sum + s.metrics.syncStability * jsOr1 s.metrics.assetCount) 0
  let syncStability := if totalWeight > 0 then jsRound10 (weightedSync / totalWeight) else 0
  { assetCount := assetCount, incidentCount := incidentCount, syncStability := syncStability }

/-! ## Claim C1 — centre-of-gravity computation -/

/-- Spec wording for C1: a factory's coordinates are valid unless
"non-finite or exactly (0,0)". -/
def specCoordValid (c : Coordinates) : Bool :=
  c.latitude.isFinite && c.longitude.isFinite
    && !(decide (c = { latitude := .fin 0, longitude := .fin 0 }))

/-- Spec wording for C1: the centroid weight is "the factory's asset count,
or 1 when the asset count is zero or missing". -/
def specWeight (f : FactoryLocation) : ℚ := if f.assets = 0 then 1 else f.assets

/-- A factory parked at the "unset" origin (0,0). -/
def demoFactoryOrigin : FactoryLocation :=
  { id := "f0", parentGroupId := "g1", subsidiaryId := "s1", name := "Origin"
    city := "Origin", country := "", description := ""
    coordinates := { latitude := .fin 0, longitude := .fin 0 }
    assets := 3, incidents := 0, syncStability := 90, status := "ACTIVE" }

/-- A factory at (10, 20) with 5 assets. -/
def demoFactoryTen : FactoryLocation :=
  { id := "f1", parentGroupId := "g1", subsidiaryId := "s1", name := "Ten"
    city := "Ten", country := "", description := ""
    coordinates := { latitude := .fin 10, longitude := .fin 20 }
    assets := 5, incidents := 1, syncStability := 95, status := "ACTIVE" }

/-! ## Claim C8 — marker level-of-detail selection

`getPinLodState` lives in the war-room map component; `zoomFactor` is the
ratio of the baseline viewBox width to the current viewBox width. -/

/-- CSS class tier attached to a pin's LOD state. -/
inductive LodClass where
  | low
  | medium
  | high
  deriving DecidableEq, Repr

/-- Result record of `getPinLodState`. -/
structure PinLodState where
  isLogoOnly : Bool
  isCompactLogo : Bool
  isFullDetail : Bool
  lodClass : LodClass
  deriving DecidableEq, Repr

/-- Embeds `LOD_LOGO_ONLY_THRESHOLD = 1.2`. -/
def LOD_LOGO_ONLY_THRESHOLD : ℚ := 1.2

/-- Embeds `LOD_FULL_DETAIL_THRESHOLD = 2.5`. -/
def LOD_FULL_DETAIL_THRESHOLD : ℚ := 2.5

/-- Embeds `getPinLodState`: zoom-threshold LOD tiers, with selection forcing full
detail. -/
def getPinLodState (zoomFactor : ℚ) (isSelected : Bool) : PinLodState :=
  let isLogoOnly := decide (zoomFactor < LOD_LOGO_ONLY_THRESHOLD)
  let isCompactLogo := decide (LOD_LOGO_ONLY_THRESHOLD ≤ zoomFactor)
    && decide (zoomFactor < LOD_FULL_DETAIL_THRESHOLD)
  let isFullDetail := decide (LOD_FULL_DETAIL_THRESHOLD ≤ zoomFactor)
  let isLogoOnly := if isSelected then false else isLogoOnly
  let isCompactLogo := if isSelected then false else isCompactLogo
  let isFullDetail := if isSelected then true else isFullDetail
  let lodClass : LodClass :=
    if isFullDetail then .high else if isCompactLogo then .medium else .low
  { isLogoOnly := isLogoOnly, isCompactLogo := isCompactLogo
    isFullDetail := isFullDetail, lodClass := lodClass }

/-! ## Claim C2 — activity-log append

`addActivityLog` filters out the factory's previous entry, prepends the new
log, sorts by normalized timestamp descending (JS `Array.prototype.sort` is
stable; a stable sort under a fixed total comparator is modelled by stable
insertion) and truncates to 40 entries.  `new Date(string).getTime()` is
abstracted as an ambient parser `parse : String → ℤ`. -/

/-- Millisecond value the comparator uses: string timestamps are normalized
through the date parser first. -/
def logTime (parse : String → ℤ) (l : ActivityLog) : ℤ :=
  match l.timestamp with
  | .str s => parse s
  | .date t => t

/-- Stable descending insertion: the inserted element originally preceded
the tail, so on timestamp ties it stays in front. -/
def insertLogDesc (t : ActivityLog → ℤ) (x : ActivityLog) :
    List ActivityLog → List ActivityLog
  | [] => [x]
  | y :: ys => if t y > t x then y :: insertLogDesc t x ys else x :: y :: ys

/-- Stable sort by timestamp, newest first. -/
def sortLogsDesc (t : ActivityLog → ℤ) : List ActivityLog → List ActivityLog
  | [] => []
  | x :: xs => insertLogDesc t x (sortLogsDesc t xs)

/-- Embeds `addActivityLog` as a transformation of the `_activityLogs` signal
content. -/
def addActivityLog (parse : String → ℤ) (log : ActivityLog)
    (currentLogs : List ActivityLog) : List ActivityLog :=
  let filteredLogs := currentLogs.filter (fun l => !(l.factoryId == log.factoryId))
  let updatedLogs := log :: filteredLogs
  (sortLogsDesc (logTime parse) updatedLogs).take 40

/-- The date parser used in concrete scenarios (every string timestamp maps
to epoch 0). -/
def parseZero : String → ℤ := fun _ => 0

/-- Concrete log for factory "fa", timestamp 5. -/
def demoLogA : ActivityLog :=
  { id := "a", factoryId := "fa", subsidiaryId := some "s1"
    timestamp := .date 5, description := "", location := "" }

/-- Concrete log for factory "fb", same timestamp 5. -/
def demoLogB : ActivityLog :=
  { id := "b", factoryId := "fb", subsidiaryId := some "s1"
    timestamp := .date 5, description := "", location := "" }

/-! ## Claim C7 — location-text parsing

`parseLocationInput` first tries the anchored regex
`/^(-?\d+\.?\d*)\s*,\s*(-?\d+\.?\d*)$/` on the trimmed input; a match is
range-checked and resolved (or rejected) synchronously, before any network
request.  The matcher below is the regex, specialized: within this anchored
pattern greedy digit/whitespace runs never need backtracking (no digit can
be consumed by `\s*` or `,`, and vice versa).  The two network fallbacks are
represented by the `geocode` outcome. -/

/-- Embeds `/\s/` on the inputs of interest (ASCII whitespace). -/
def isJsSpace (c : Char) : Bool :=
  c == ' ' || c == '\t' || c == '\n' || c == '\r' || c == '\x0b' || c == '\x0c'

/-- Decimal value of a digit run. -/
def digitsToNat (ds : List Char) : ℕ :=
  ds.foldl (fun n c => 10 * n + (c.toNat - '0'.toNat)) 0

/-- A capture of `-?\d+\.?\d*`: sign, integer digits, fraction digits. -/
structure NumTok where
  neg : Bool
  intDigits : List Char
  fracDigits : List Char
  deriving DecidableEq, Repr

/-- Embeds `parseFloat` on a `-?\d+\.?\d*` capture. -/
def NumTok.val (t : NumTok) : ℚ :=
  let mag : ℚ := (digitsToNat t.intDigits : ℚ)
    + (digitsToNat t.fracDigits : ℚ) / ((10 : ℚ) ^ t.fracDigits.length)
  if t.neg then -mag else mag

/-- Consume one `-?\d+\.?\d*` capture from the front; `none` if the text
does not start with one. -/
def parseNumTok (cs : List Char) : Option (NumTok × List Char) :=
  let (neg, cs1) :=
    match cs with
    | '-' :: rest => (true, rest)
    | _ => (false, cs)
  let intDigits := cs1.takeWhile (·.isDigit)
  let cs2 := cs1.dropWhile (·.isDigit)
  if intDigits.isEmpty then none
  else
    let (fracDigits, cs3) :=
      match cs2 with
      | '.' :: rest => (rest.takeWhile (·.isDigit), rest.dropWhile (·.isDigit))
      | _ => ([], cs2)
    some ({ neg := neg, intDigits := intDigits, fracDigits := fracDigits }, cs3)

/-- The anchored coordinate regex `^(-?\d+\.?\d*)\s*,\s*(-?\d+\.?\d*)$`. -/
def matchCoordPattern (cs : List Char) : Option (NumTok × NumTok) :=
  match parseNumTok cs with
  | none => none
  | some (latTok, r1) =>
    match r1.dropWhile isJsSpace with
    | ',' :: r3 =>
      match parseNumTok (r3.dropWhile isJsSpace) with
      | some (lngTok, []) => some (latTok, lngTok)
      | _ => none
    | _ => none

/-- Embeds `String.prototype.trim`. -/
def jsTrim (s : String) : List Char :=
  ((s.data.dropWhile isJsSpace).reverse.dropWhile isJsSpace).reverse

/-- Synchronous outcome of `parseLocationInput`: a coordinate pair resolved
directly, a range-error rejection (both before any network traffic), or a
fall-through to the external geocoding strategies with the trimmed query. -/
inductive LocationParseOutcome where
  | direct (latitude longitude : ℚ)
  | rangeError (latitude longitude : ℚ)
  | geocode (query : List Char)
  deriving DecidableEq, Repr

/-- Embeds `parseLocationInput`, up to the point where it either resolves
synchronously or issues its first geocoding request. -/
def parseLocationInput (input : String) : LocationParseOutcome :=
  let trimmed := jsTrim input
  match matchCoordPattern trimmed with
  | some (latTok, lngTok) =>
    let latitude := latTok.val
    let longitude := lngTok.val
    if -90 ≤ latitude ∧ latitude ≤ 90 ∧ -180 ≤ longitude ∧ longitude ≤ 180 then
      .direct latitude longitude
    else .rangeError latitude longitude
  | none => .geocode trimmed

/-! ## Store operations on `ServiceState` -/

/-- Replace the first element satisfying `p` — the `findIndex` plus
copy-with-updated-index pattern used throughout the service. -/
def updateFirst {α : Type} (p : α → Bool) (f : α → α) : List α → List α
  | [] => []
  | x :: xs => if p x then f x :: xs else x :: updateFirst p f xs

/-- Embeds `normalizeSelection`: re-derive ancestor ids from the hierarchy;
`none` when the referenced entity no longer exists. -/
def normalizeSelection (groups : List ParentGroup)
    (selection : FleetSelection) : Option FleetSelection :=
  match selection.level with
  | .parent =>
    (groups.find? (fun g => g.id == selection.id)).map (fun parent =>
      { level := .parent, id := parent.id, parentGroupId := some parent.id
        subsidiaryId := none, factoryId := none })
  | .subsidiary =>
    ((subsidiariesOf groups).find? (fun s => s.id == selection.id)).map
      (fun subsidiary =>
        { level := .subsidiary, id := subsidiary.id
          parentGroupId := some subsidiary.parentGroupId
          subsidiaryId := some subsidiary.id, factoryId := none })
  | .factory =>
    ((factoriesOf groups).find? (fun f => f.id == selection.id)).map
      (fun factory =>
        { level := .factory, id := factory.id
          parentGroupId := some factory.parentGroupId
          subsidiaryId := some factory.subsidiaryId
          factoryId := some factory.id })

/-- Embeds `getFirstFactoryForSelection`: first descendant factory of a subsidiary
or parent selection, `null` otherwise. -/
def getFirstFactoryForSelection (groups : List ParentGroup)
    (selection : FleetSelection) : Option FactoryLocation :=
  match selection.level with
  | .subsidiary =>
    ((subsidiariesOf groups).find? (fun s => s.id == selection.id)).bind
      (fun s => s.factories.head?)
  | .parent =>
    let parentId := jsOrStr selection.parentGroupId selection.id
    (((groups.find? (fun g => g.id == parentId)).bind
      (fun p => p.subsidiaries.head?)).bind (fun s => s.factories.head?))
  | .factory => none

/-- Embeds `setMapViewMode`: set the mode, clear the factory filter, then try to
carry the current selection to the new level. -/
def setMapViewMode (viewMode : Level) (st : ServiceState) : ServiceState :=
  let st1 := { st with mapViewMode := viewMode, factoryFilterSubsidiaryId := none }
  match st1.selectedEntity with
  | none => st1
  | some selection =>
    if selection.level = viewMode then st1
    else
      match viewMode with
      | .parent =>
        let parentId := jsOrStr selection.parentGroupId selection.id
        if parentId ≠ "" then
          { st1 with selectedEntity := some {
              level := .parent, id := parentId, parentGroupId := some parentId
              subsidiaryId := none, factoryId := none } }
        else st1
      | .subsidiary =>
        let subId := jsOrOpt selection.subsidiaryId
          (if selection.level = .subsidiary then some selection.id else none)
        if strTruthy subId then
          let subsidiaryId := subId.getD ""
          let parentId := jsOrOpt selection.parentGroupId
            (((subsidiariesOf st1.parentGroups).find?
              (fun s => s.id == subsidiaryId)).map (·.parentGroupId))
          { st1 with selectedEntity := some {
              level := .subsidiary, id := subsidiaryId
              parentGroupId := jsStrOpt parentId
              subsidiaryId := some subsidiaryId, factoryId := none } }
        else st1
      | .factory =>
        if selection.level = .subsidiary then st1
        else if strTruthy selection.factoryId then
          { st1 with selectedEntity := some {
              level := .factory, id := selection.factoryId.getD ""
              parentGroupId := selection.parentGroupId
              subsidiaryId := selection.subsidiaryId
              factoryId := selection.factoryId } }
        else
          match getFirstFactoryForSelection st1.parentGroups selection with
          | some fallbackFactory =>
            { st1 with selectedEntity := some {
                level := .factory, id := fallbackFactory.id
                parentGroupId := some fallbackFactory.parentGroupId
                subsidiaryId := some fallbackFactory.subsidiaryId
                factoryId := some fallbackFactory.id } }
          | none => st1

/-- Embeds `selectEntity`: reject subsidiary selections outside subsidiary view,
store the normalized selection, and align the view mode with its level
except when selecting a factory from subsidiary view. -/
def selectEntity (selection : Option FleetSelection) (st : ServiceState) :
    ServiceState :=
  match selection with
  | none => { st with selectedEntity := none }
  | some sel =>
    if sel.level = .subsidiary ∧ st.mapViewMode ≠ .subsidiary then st
    else
      let normalized := normalizeSelection st.parentGroups sel
      let st1 := { st with selectedEntity := normalized }
      match normalized with
      | some norm =>
        if norm.level = .factory ∧ st1.mapViewMode = .subsidiary then st1
        else { st1 with mapViewMode := norm.level }
      | none => st1

/-- Embeds `deleteSubsidiary`: remove the subsidiary everywhere, recompute touched
groups' metrics, prune logs referencing the subsidiary or its factories,
and re-home or clear the selection. -/
def deleteSubsidiary (subsidiaryId : String) (st : ServiceState) : ServiceState :=
  match (subsidiariesOf st.parentGroups).find? (fun s => s.id == subsidiaryId) with
  | none => st
  | some removedSubsidiary =>
    let parentGroupId := removedSubsidiary.parentGroupId
    let updatedGroups := st.parentGroups.map (fun (group : ParentGroup) =>
      let remainingSubsidiaries :=
        group.subsidiaries.filter (fun s => !(s.id == subsidiaryId))
      if remainingSubsidiaries.length = group.subsidiaries.length then group
      else
        { group with
          subsidiaries := remainingSubsidiaries,
          metrics := computeMetricsFromSubsidiaries remainingSubsidiaries })
    let removedFactoryIds := removedSubsidiary.factories.map (·.id)
    let updatedLogs := st.activityLogs.filter (fun log =>
      !(log.subsidiaryId == some subsidiaryId)
        && !(removedFactoryIds.contains log.factoryId))
    let (newSelection, newMode) :=
      match st.selectedEntity with
      | some selection =>
        if selection.subsidiaryId = some subsidiaryId ∨ selection.id = subsidiaryId then
          if parentGroupId ≠ "" then
            (some ({ level := .parent, id := parentGroupId
                     parentGroupId := some parentGroupId
                     subsidiaryId := none, factoryId := none } : FleetSelection),
             Level.parent)
          else (none, st.mapViewMode)
        else (st.selectedEntity, st.mapViewMode)
      | none => (st.selectedEntity, st.mapViewMode)
    { st with
      parentGroups := updatedGroups, activityLogs := updatedLogs,
      selectedEntity := newSelection, mapViewMode := newMode }

/-- Embeds `deleteFactory`: remove the factory from every subsidiary holding it,
recompute metrics bottom-up, prune its logs, and re-home the selection to
the surviving subsidiary / group (the mutable `parentGroupId`/`subsidiaryId`
captures in the source hold the ids of the last subsidiary traversed that
contained the factory). -/
def deleteFactory (factoryId : String) (st : ServiceState) : ServiceState :=
  let owners := st.parentGroups.flatMap (fun group =>
    group.subsidiaries.filterMap (fun subsidiary =>
      if subsidiary.factories.any (fun f => f.id == factoryId) then
        some (group.id, subsidiary.id)
      else none))
  if howners : owners.isEmpty then st
  else
    let updatedGroups := st.parentGroups.map (fun group =>
      if group.subsidiaries.any (fun s => s.factories.any (fun f => f.id == factoryId)) then
        let updatedSubsidiaries := group.subsidiaries.map (fun subsidiary =>
          if subsidiary.factories.any (fun f => f.id == factoryId) then
            let remainingFactories :=
              subsidiary.factories.filter (fun f => !(f.id == factoryId))
            { subsidiary with
              factories := remainingFactories,
              metrics := computeMetricsFromFactories remainingFactories }
          else subsidiary)
        { group with
          subsidiaries := updatedSubsidiaries,
          metrics := computeMetricsFromSubsidiaries updatedSubsidiaries }
      else group)
    let updatedLogs := st.activityLogs.filter (fun log => !(log.factoryId == factoryId))
    let owner := owners.getLast (by simpa [List.isEmpty_iff] using howners)
    let (newSelection, newMode) :=
      match st.selectedEntity with
      | some selection =>
        if selection.factoryId = some factoryId ∨ selection.id = factoryId then
          if owner.2 ≠ "" then
            (some ({ level := .subsidiary, id := owner.2
                     parentGroupId := jsStrOpt (some owner.1)
                     subsidiaryId := some owner.2, factoryId := none } : FleetSelection),
             Level.subsidiary)
          else if owner.1 ≠ "" then
            (some ({ level := .parent, id := owner.1, parentGroupId := some owner.1
                     subsidiaryId := none, factoryId := none } : FleetSelection),
             Level.parent)
          else (none, st.mapViewMode)
        else (st.selectedEntity, st.mapViewMode)
      | none => (st.selectedEntity, st.mapViewMode)
    { st with
      parentGroups := updatedGroups, activityLogs := updatedLogs,
      selectedEntity := newSelection, mapViewMode := newMode }

/-- Shared found-case body of `updateSubsidiary` (reached directly, or via
`addSubsidiary` when the subsidiary already exists): replace the first
subsidiary with that id under the first group with the declared parent id,
recomputing its metrics from its factories and the group's from its
subsidiaries. -/
def updateSubsidiaryFound (subsidiary : SubsidiaryCompany) (st : ServiceState) :
    ServiceState :=
  let updatedSubsidiary :=
    { subsidiary with metrics := computeMetricsFromFactories subsidiary.factories }
  let newGroups :=
    updateFirst (fun g => g.id == subsidiary.parentGroupId)
      (fun parent =>
        let updatedSubsidiaries :=
          updateFirst (fun s => s.id == subsidiary.id) (fun _ => updatedSubsidiary)
            parent.subsidiaries
        { parent with
          subsidiaries := updatedSubsidiaries,
          metrics := computeMetricsFromSubsidiaries updatedSubsidiaries })
      st.parentGroups
  { st with parentGroups := newGroups }

/-- Embeds `addSubsidiary`: create the parent group when the declared parent id is
unknown; update in place when the subsidiary already exists (the source
calls `updateSubsidiary`, which under these guards lands in its found case);
otherwise append. -/
def addSubsidiary (subsidiary : SubsidiaryCompany) (st : ServiceState) :
    ServiceState :=
  let normalizedSubsidiary :=
    { subsidiary with metrics := computeMetricsFromFactories subsidiary.factories }
  match st.parentGroups.find? (fun g => g.id == subsidiary.parentGroupId) with
  | none =>
    let newParent : ParentGroup :=
      { id := subsidiary.parentGroupId
        name := subsidiary.parentGroupId.toUpper
        status := "ACTIVE"
        subsidiaries := [normalizedSubsidiary]
        metrics := computeMetricsFromSubsidiaries [normalizedSubsidiary] }
    { st with parentGroups := st.parentGroups ++ [newParent] }
  | some parent =>
    if parent.subsidiaries.any (fun s => s.id == subsidiary.id) then
      updateSubsidiaryFound normalizedSubsidiary st
    else
      let newGroups :=
        updateFirst (fun g => g.id == subsidiary.parentGroupId)
          (fun parent =>
            let updatedSubsidiaries := parent.subsidiaries ++ [normalizedSubsidiary]
            { parent with
              subsidiaries := updatedSubsidiaries,
              metrics := computeMetricsFromSubsidiaries updatedSubsidiaries })
          st.parentGroups
      { st with parentGroups := newGroups }

/-- Embeds `updateSubsidiary`: found case updates in place; a missing parent group
or subsidiary falls back to `addSubsidiary` (which under those guards lands
in its create/append branches). -/
def updateSubsidiary (subsidiary : SubsidiaryCompany) (st : ServiceState) :
    ServiceState :=
  match st.parentGroups.find? (fun g => g.id == subsidiary.parentGroupId) with
  | none => addSubsidiary subsidiary st
  | some parent =>
    if parent.subsidiaries.any (fun s => s.id == subsidiary.id) then
      updateSubsidiaryFound subsidiary st
    else addSubsidiary subsidiary st

/-- Shared found-case body of `updateFactory` (reached directly, or via
`addFactory` when the factory already exists). -/
def updateFactoryFound (factory : FactoryLocation) (st : ServiceState) :
    ServiceState :=
  let newGroups :=
    updateFirst (fun g => g.id == factory.parentGroupId)
      (fun parent =>
        let updatedSubsidiaries :=
          updateFirst (fun s => s.id == factory.subsidiaryId)
            (fun subsidiary =>
              let updatedFactories :=
                updateFirst (fun f => f.id == factory.id) (fun _ => factory)
                  subsidiary.factories
              { subsidiary with
                factories := updatedFactories,
                metrics := computeMetricsFromFactories updatedFactories })
            parent.subsidiaries
        { parent with
          subsidiaries := updatedSubsidiaries,
          metrics := computeMetricsFromSubsidiaries updatedSubsidiaries })
      st.parentGroups
  { st with parentGroups := newGroups }

/-- Embeds `addFactory`: warn-and-return when the declared parent group or
subsidiary is unknown; update in place when the factory already exists;
otherwise append and recompute metrics bottom-up. -/
def addFactory (factory : FactoryLocation) (st : ServiceState) : ServiceState :=
  match st.parentGroups.find? (fun g => g.id == factory.parentGroupId) with
  | none => st
  | some parent =>
    match parent.subsidiaries.find? (fun s => s.id == factory.subsidiaryId) with
    | none => st
    | some subsidiary =>
      if subsidiary.factories.any (fun f => f.id == factory.id) then
        updateFactoryFound factory st
      else
        let newGroups :=
          updateFirst (fun g => g.id == factory.parentGroupId)
            (fun parent =>
              let updatedSubsidiaries :=
                updateFirst (fun s => s.id == factory.subsidiaryId)
                  (fun subsidiary =>
                    let updatedFactories := subsidiary.factories ++ [factory]
                    { subsidiary with
                      factories := updatedFactories,
                      metrics := computeMetricsFromFactories updatedFactories })
                  parent.subsidiaries
              { parent with
                subsidiaries := updatedSubsidiaries,
                metrics := computeMetricsFromSubsidiaries updatedSubsidiaries })
            st.parentGroups
        { st with parentGroups := newGroups }

/-- Embeds `updateFactory`: found case updates in place; a missing factory under an
existing parent/subsidiary falls back to `addFactory` (landing in its
append branch); a missing parent or subsidiary is a no-op. -/
def updateFactory (factory : FactoryLocation) (st : ServiceState) : ServiceState :=
  match st.parentGroups.find? (fun g => g.id == factory.parentGroupId) with
  | none => st
  | some parent =>
    match parent.subsidiaries.find? (fun s => s.id == factory.subsidiaryId) with
    | none => st
    | some subsidiary =>
      if subsidiary.factories.any (fun f => f.id == factory.id) then
        updateFactoryFound factory st
      else addFactory factory st

/-- The optional fields of `updateSubsidiaryDetails`. -/
structure SubsidiaryUpdates where
  name : Option String
  location : Option String
  description : Option String
  status : Option String
  deriving DecidableEq, Repr

/-- Embeds `updateSubsidiaryDetails`: patch name/location/description/status of
every subsidiary with the id (metrics untouched), recomputing the metrics
of each touched group. -/
def updateSubsidiaryDetails (subsidiaryId : String) (updates : SubsidiaryUpdates)
    (st : ServiceState) : ServiceState :=
  { st with parentGroups := st.parentGroups.map (fun group =>
      if group.subsidiaries.any (fun s => s.id == subsidiaryId) then
        let updatedSubsidiaries := group.subsidiaries.map (fun subsidiary =>
          if subsidiary.id == subsidiaryId then
            { subsidiary with
              name := updates.name.getD subsidiary.name
              location := updates.location.getD subsidiary.location
              description := updates.description.getD subsidiary.description
              status := updates.status.getD subsidiary.status }
          else subsidiary)
        { group with
          subsidiaries := updatedSubsidiaries,
          metrics := computeMetricsFromSubsidiaries updatedSubsidiaries }
      else group) }

/-- The optional fields of `updateFactoryDetails`. -/
structure FactoryUpdates where
  name : Option String
  city : Option String
  country : Option String
  description : Option String
  coordinates : Option Coordinates
  locationLabel : Option String
  status : Option String
  deriving DecidableEq, Repr

/-- Embeds `updateFactoryDetails`: patch the first factory with the id inside each
subsidiary containing it, recompute metrics bottom-up, and mirror
description/location changes into that factory's activity-log entries. -/
def updateFactoryDetails (factoryId : String) (updates : FactoryUpdates)
    (st : ServiceState) : ServiceState :=
  let applyUpdates := fun (factory : FactoryLocation) =>
    { factory with
      name := updates.name.getD factory.name
      city := updates.city.getD factory.city
      country := updates.country.getD factory.country
      description := updates.description.getD factory.description
      coordinates := updates.coordinates.getD factory.coordinates
      status := updates.status.getD factory.status }
  let updatedGroups := st.parentGroups.map (fun group =>
    if group.subsidiaries.any (fun s => s.factories.any (fun f => f.id == factoryId)) then
      let updatedSubsidiaries := group.subsidiaries.map (fun subsidiary =>
        if subsidiary.factories.any (fun f => f.id == factoryId) then
          let updatedFactories :=
            updateFirst (fun f => f.id == factoryId) applyUpdates subsidiary.factories
          { subsidiary with
            factories := updatedFactories,
            metrics := computeMetricsFromFactories updatedFactories }
        else subsidiary)
      { group with
        subsidiaries := updatedSubsidiaries,
        metrics := computeMetricsFromSubsidiaries updatedSubsidiaries }
    else group)
  let updatedLogs :=
    if updates.description.isSome || strTruthy updates.locationLabel then
      st.activityLogs.map (fun log =>
        if log.factoryId == factoryId then
          { log with
            description := updates.description.getD log.description,
            location := updates.locationLabel.getD log.location }
        else log)
    else st.activityLogs
  { st with parentGroups := updatedGroups, activityLogs := updatedLogs }

/-- The `Partial<Hub>` argument of `updateHubStatus`. -/
structure HubUpdates where
  code : Option String
  status : Option String
  deriving DecidableEq, Repr

/-- Embeds `updateHubStatus`: locate the first group owning the subsidiary, then
the subsidiary, then the hub by code; merge the partial update and
recompute the group's metrics; silently return when any lookup fails. -/
def updateHubStatus (subsidiaryId : String) (hubCode : String)
    (updates : HubUpdates) (st : ServiceState) : ServiceState :=
  match st.parentGroups.find? (fun g => g.subsidiaries.any (fun s => s.id == subsidiaryId)) with
  | none => st
  | some parent =>
    match parent.subsidiaries.find? (fun s => s.id == subsidiaryId) with
    | none => st
    | some subsidiary =>
      if subsidiary.hubs.any (fun h => h.code == hubCode) then
        let newGroups :=
          updateFirst (fun g => g.subsidiaries.any (fun s => s.id == subsidiaryId))
            (fun parent =>
              let updatedSubsidiaries :=
                updateFirst (fun s => s.id == subsidiaryId)
                  (fun subsidiary =>
                    let updatedHubs :=
                      updateFirst (fun h => h.code == hubCode)
                        (fun hub =>
                          { hub with
                            code := updates.code.getD hub.code,
                            status := updates.status.getD hub.status })
                        subsidiary.hubs
                    { subsidiary with hubs := updatedHubs })
                  parent.subsidiaries
              { parent with
                subsidiaries := updatedSubsidiaries,
                metrics := computeMetricsFromSubsidiaries updatedSubsidiaries })
            st.parentGroups
        { st with parentGroups := newGroups }
      else st

/-! ## Concrete scenario data -/

/-- A subsidiary "s1" under group "g1" owning `demoFactoryTen` and hub "H1";
its stored metrics equal the recomputation over its factories. -/
def demoSubsidiary : SubsidiaryCompany :=
  { id := "s1", parentGroupId := "g1", name := "Sub One", location := "Loc"
    description := "", status := "ACTIVE"
    hubs := [{ code := "H1", status := "ACTIVE" }]
    factories := [demoFactoryTen]
    metrics := { assetCount := 5, incidentCount := 1, syncStability := 95 } }

/-- The parent group "g1" owning `demoSubsidiary`, with consistent metrics. -/
def demoGroup : ParentGroup :=
  { id := "g1", name := "G1", status := "ACTIVE"
    subsidiaries := [demoSubsidiary]
    metrics := { assetCount := 5, incidentCount := 1, syncStability := 95 } }

/-- A parent-level selection of "g1". -/
def demoSelParent : FleetSelection :=
  { level := .parent, id := "g1", parentGroupId := some "g1"
    subsidiaryId := none, factoryId := none }

/-- A subsidiary-level selection of "s1". -/
def demoSelSub : FleetSelection :=
  { level := .subsidiary, id := "s1", parentGroupId := some "g1"
    subsidiaryId := some "s1", factoryId := none }

/-- Base state: the one-group hierarchy, parent view, "g1" selected. -/
def demoState : ServiceState :=
  { parentGroups := [demoGroup]
    transitRoutes := [{ id := "r1", source := "s1", dest := "s1" }]
    activityLogs := [{ id := "l1", factoryId := "f1", subsidiaryId := some "s1"
                       timestamp := .date 1, description := "", location := "" }]
    networkMetrics := none, networkThroughput := none
    mapViewMode := .parent, selectedEntity := some demoSelParent
    factoryFilterSubsidiaryId := some "s1" }

/-- Variant of `demoState` with the subsidiary selected in subsidiary view. -/
def demoStateSubSel : ServiceState :=
  { demoState with selectedEntity := some demoSelSub, mapViewMode := .subsidiary }

/-! ## Claim C5 — missing-target CRUD behavior -/

/-- A factory declaring a parent group that does not exist in `demoState`. -/
def demoOrphanFactory : FactoryLocation :=
  { id := "f9", parentGroupId := "missing", subsidiaryId := "s9", name := "Orphan"
    city := "Nowhere", country := "", description := ""
    coordinates := { latitude := .fin 1, longitude := .fin 1 }
    assets := 0, incidents := 0, syncStability := 0, status := "ACTIVE" }

/-- A subsidiary declaring a parent group that does not exist in `demoState`. -/
def demoOrphanSubsidiary : SubsidiaryCompany :=
  { id := "s9", parentGroupId := "missing", name := "Orphan Sub", location := ""
    description := "", status := "ACTIVE", hubs := [], factories := []
    metrics := { assetCount := 0, incidentCount := 0, syncStability := 0 } }

/-! ## Claim C3 — aggregate-metrics consistency -/

/-- A subsidiary's stored metrics equal the recomputation over its current
factories. -/
def subsidiaryConsistent (s : SubsidiaryCompany) : Prop :=
  s.metrics = computeMetricsFromFactories s.factories

/-- A group's stored metrics equal the recomputation over its current
subsidiaries' metrics, each of which is itself consistent. -/
def groupConsistent (g : ParentGroup) : Prop :=
  g.metrics = computeMetricsFromSubsidiaries g.subsidiaries
    ∧ ∀ s ∈ g.subsidiaries, subsidiaryConsistent s

/-- The invariant of C3 over the entire hierarchy. -/
def hierarchyConsistent (groups : List ParentGroup) : Prop :=
  ∀ g ∈ groups, groupConsistent g

/-! ## Theorems -/

theorem foldl_add_eq_sum {α : Type} (g : α → ℚ) (l : List α) (a : ℚ) :
    l.foldl (fun s x => s + g x) a = a + (l.map g).sum := by
  induction l generalizing a with
  | nil => simp
  | cons x xs ih => simp only [List.foldl_cons, List.map_cons, List.sum_cons, ih, add_assoc]

theorem isValidCoordinates_eq_specCoordValid (c : Coordinates) :
    isValidCoordinates (some c) = specCoordValid c := by
  rcases c with ⟨la, lo⟩
  rcases la with q | _ | _ | _ <;> rcases lo with r | _ | _ | _ <;>
    simp only [isValidCoordinates, specCoordValid, JsNum.isFinite,
      Coordinates.mk.injEq, JsNum.fin.injEq, Bool.not_true, Bool.not_false,
      Bool.false_or, Bool.or_false, Bool.true_and, Bool.and_true,
      Bool.and_false, Bool.false_and, Bool.and_self, decide_True, decide_False,
      if_true, if_false] <;>
    first
    | rfl
    | (by_cases hq : q = 0 <;> by_cases hr : r = 0 <;>
        simp_all [Coordinates.mk.injEq, JsNum.fin.injEq])

/-- C1: `computeCenterOfGravity` excludes factories whose coordinates are
non-finite or exactly (0,0); over the remaining factories it returns the
asset-weighted average of latitudes and longitudes (weight = asset count,
or 1 when the count is zero); with no valid factory it returns the explicit
invalid pair (NaN, NaN), which differs from (0,0); and on the concrete
inputs (0,0) and (10,20) with 5 assets it returns (10,20). -/
theorem computeCenterOfGravity_weighted_centroid (fs : List FactoryLocation) :
    (computeCenterOfGravity fs =
      (let valid := fs.filter (fun f => specCoordValid f.coordinates)
       if valid = [] then { latitude := .nan, longitude := .nan }
       else
         { latitude :=
             jsDiv ((valid.map (fun f => f.coordinates.latitude.finPart * specWeight f)).sum)
                   ((valid.map specWeight).sum)
           longitude :=
             jsDiv ((valid.map (fun f => f.coordinates.longitude.finPart * specWeight f)).sum)
                   ((valid.map specWeight).sum) }))
    ∧ ({ latitude := .nan, longitude := .nan } : Coordinates)
        ≠ { latitude := .fin 0, longitude := .fin 0 }
    ∧ computeCenterOfGravity [demoFactoryOrigin, demoFactoryTen] =
        { latitude := .fin 10, longitude := .fin 20 } := by
  refine ⟨?_, by decide, ?_⟩
  · have hpred :
        (fun f : FactoryLocation => isValidCoordinates (some f.coordinates))
          = fun f => specCoordValid f.coordinates := by
      funext f; exact isValidCoordinates_eq_specCoordValid f.coordinates
    have hw : ∀ f : FactoryLocation, jsOr1 f.assets = specWeight f := by
      intro f; rfl
    simp only [computeCenterOfGravity, hpred]
    set valid := fs.filter (fun f => specCoordValid f.coordinates) with hvalid
    by_cases h : valid = []
    · simp [h]
    · have hne : valid.isEmpty = false := by
        simpa [List.isEmpty_iff] using h
      simp only [hne, Bool.false_eq_true, if_false, h]
      simp only [foldl_add_eq_sum, zero_add]
      simp [hw]
  · norm_num [computeCenterOfGravity, isValidCoordinates, JsNum.isFinite,
      demoFactoryOrigin, demoFactoryTen, jsOr1, jsDiv, JsNum.finPart]

/-- C8: without selection the LOD tier is exactly determined by the zoom
thresholds (logo-only iff `z < 1.2`, compact iff `1.2 ≤ z < 2.5`, full
detail iff `z ≥ 2.5`), and a selected marker is always full detail and
never logo-only or compact. -/
theorem getPinLodState_thresholds (z : ℚ) :
    ((getPinLodState z false).isLogoOnly = decide (z < 1.2))
    ∧ ((getPinLodState z false).isCompactLogo = decide (1.2 ≤ z ∧ z < 2.5))
    ∧ ((getPinLodState z false).isFullDetail = decide (2.5 ≤ z))
    ∧ ((getPinLodState z true).isFullDetail = true)
    ∧ ((getPinLodState z true).isLogoOnly = false)
    ∧ ((getPinLodState z true).isCompactLogo = false) := by
  refine ⟨rfl, ?_, rfl, rfl, rfl, rfl⟩
  by_cases h1 : (1.2 : ℚ) ≤ z <;> by_cases h2 : z < (2.5 : ℚ) <;>
    simp [getPinLodState, LOD_LOGO_ONLY_THRESHOLD, LOD_FULL_DETAIL_THRESHOLD, h1, h2]

theorem mem_insertLogDesc {t : ActivityLog → ℤ} {x a : ActivityLog}
    {l : List ActivityLog} : a ∈ insertLogDesc t x l ↔ a = x ∨ a ∈ l := by
  induction l with
  | nil => simp [insertLogDesc]
  | cons y ys ih =>
    by_cases h : t y > t x <;>
      simp [insertLogDesc, h, ih, or_comm, or_assoc, or_left_comm]

theorem length_insertLogDesc (t : ActivityLog → ℤ) (x : ActivityLog)
    (l : List ActivityLog) : (insertLogDesc t x l).length = l.length + 1 := by
  induction l with
  | nil => simp [insertLogDesc]
  | cons y ys ih =>
    by_cases h : t y > t x <;> simp [insertLogDesc, h, ih]

theorem head?_insertLogDesc (t : ActivityLog → ℤ) (x : ActivityLog)
    (l : List ActivityLog) :
    (insertLogDesc t x l).head? = some x ∨ (insertLogDesc t x l).head? = l.head? := by
  cases l with
  | nil => left; rfl
  | cons y ys =>
    by_cases h : t y > t x
    · right; simp [insertLogDesc, h]
    · left; simp [insertLogDesc, h]

theorem chain'_insertLogDesc {t : ActivityLog → ℤ} {x : ActivityLog} :
    ∀ {l : List ActivityLog}, List.Chain' (fun a b => t b ≤ t a) l →
      List.Chain' (fun a b => t b ≤ t a) (insertLogDesc t x l) := by
  intro l
  induction l with
  | nil => intro _; simp [insertLogDesc]
  | cons y ys ih =>
    intro h
    by_cases hxy : t y > t x
    · simp only [insertLogDesc, if_pos hxy]
      refine List.chain'_cons'.2 ⟨?_, ih h.tail⟩
      intro a ha
      rcases head?_insertLogDesc t x ys with h1 | h1
      · rw [h1] at ha
        simp only [Option.mem_def, Option.some.injEq] at ha
        exact ha ▸ le_of_lt hxy
      · rw [h1] at ha
        exact (List.chain'_cons'.1 h).1 a ha
    · simp only [insertLogDesc, if_neg hxy]
      exact List.chain'_cons.2 ⟨not_lt.1 hxy, h⟩

theorem mem_sortLogsDesc {t : ActivityLog → ℤ} {a : ActivityLog}
    {l : List ActivityLog} : a ∈ sortLogsDesc t l ↔ a ∈ l := by
  induction l with
  | nil => simp [sortLogsDesc]
  | cons x xs ih => simp [sortLogsDesc, mem_insertLogDesc, ih]

theorem chain'_sortLogsDesc (t : ActivityLog → ℤ) (l : List ActivityLog) :
    List.Chain' (fun a b => t b ≤ t a) (sortLogsDesc t l) := by
  induction l with
  | nil => simp [sortLogsDesc]
  | cons x xs ih => exact chain'_insertLogDesc ih

/-- C2 (amended): after `addActivityLog` the list contains no entry other
than the new log itself with the new log's factory id, has at most 40
entries, and is ordered by normalized timestamp newest-first
(non-increasing — entries with equal timestamps make the order non-strict,
which is why the original "strictly descending" wording fails). -/
theorem addActivityLog_dedup_cap_sorted (parse : String → ℤ)
    (currentLogs : List ActivityLog) (log : ActivityLog) :
    (∀ l ∈ addActivityLog parse log currentLogs,
        l.factoryId = log.factoryId → l = log)
    ∧ (addActivityLog parse log currentLogs).length ≤ 40
    ∧ List.Chain' (fun a b => logTime parse b ≤ logTime parse a)
        (addActivityLog parse log currentLogs) := by
  refine ⟨?_, ?_, ?_⟩
  · intro l hl hfid
    have hmem : l ∈ sortLogsDesc (logTime parse)
        (log :: currentLogs.filter (fun l => !(l.factoryId == log.factoryId))) :=
      List.mem_of_mem_take hl
    rw [mem_sortLogsDesc] at hmem
    rcases List.mem_cons.1 hmem with h | h
    · exact h
    · exact absurd hfid (by simpa using (List.mem_filter.1 h).2)
  · exact List.length_take_le 40 _
  · exact (chain'_sortLogsDesc (logTime parse) _).take 40

/-- C2 counterexample: appending a log whose timestamp ties an existing
entry for another factory yields two adjacent equal timestamps, so the
resulting list is NOT sorted in strictly descending timestamp order. -/
theorem addActivityLog_not_strictly_sorted :
    addActivityLog parseZero demoLogB [demoLogA] = [demoLogB, demoLogA]
    ∧ ¬ List.Chain' (fun a b => logTime parseZero b < logTime parseZero a)
        (addActivityLog parseZero demoLogB [demoLogA]) := by
  have heq : addActivityLog parseZero demoLogB [demoLogA] = [demoLogB, demoLogA] := by
    decide
  refine ⟨heq, ?_⟩
  intro hchain
  rw [heq] at hchain
  have h5 : logTime parseZero demoLogA < logTime parseZero demoLogB :=
    (List.chain'_cons.1 hchain).1
  simp [logTime, parseZero, demoLogA, demoLogB] at h5

/-- Closed instance of the amended C2 theorem. -/
theorem addActivityLog_dedup_cap_sorted_witness :
    (addActivityLog parseZero demoLogB [demoLogA]).length ≤ 40 :=
  (addActivityLog_dedup_cap_sorted parseZero [demoLogA] demoLogB).2.1

/-- C7: whenever the trimmed input matches the numeric coordinate pattern,
`parseLocationInput` resolves synchronously — returning the parsed pair
when latitude lies in -90..90 and longitude in -180..180, and rejecting
with the explicit range error otherwise, with no network call in either
case; concretely, "45.0, -73.0" resolves to (45, -73) and "200, 0" fails
with the range error. -/
theorem parseLocationInput_coordinate_fast_path (input : String)
    (latTok lngTok : NumTok)
    (h : matchCoordPattern (jsTrim input) = some (latTok, lngTok)) :
    (parseLocationInput input =
      if -90 ≤ latTok.val ∧ latTok.val ≤ 90
          ∧ -180 ≤ lngTok.val ∧ lngTok.val ≤ 180 then
        .direct latTok.val lngTok.val
      else .rangeError latTok.val lngTok.val)
    ∧ parseLocationInput "45.0, -73.0" = .direct 45 (-73)
    ∧ parseLocationInput "200, 0" = .rangeError 200 0 := by
  refine ⟨?_, ?_, ?_⟩
  · simp only [parseLocationInput, h]
  · have hm : matchCoordPattern (jsTrim "45.0, -73.0")
        = some ({ neg := false, intDigits := ['4', '5'], fracDigits := ['0'] },
                { neg := true, intDigits := ['7', '3'], fracDigits := ['0'] }) := by
      decide
    have hlat : (NumTok.mk false ['4', '5'] ['0']).val = 45 := by
      norm_num [NumTok.val, show digitsToNat ['4', '5'] = 45 from by decide,
        show digitsToNat ['0'] = 0 from by decide]
    have hlng : (NumTok.mk true ['7', '3'] ['0']).val = -73 := by
      norm_num [NumTok.val, show digitsToNat ['7', '3'] = 73 from by decide,
        show digitsToNat ['0'] = 0 from by decide]
    simp only [parseLocationInput, hm, hlat, hlng]
    rw [if_pos (by norm_num)]
  · have hm : matchCoordPattern (jsTrim "200, 0")
        = some ({ neg := false, intDigits := ['2', '0', '0'], fracDigits := [] },
                { neg := false, intDigits := ['0'], fracDigits := [] }) := by
      decide
    have hlat : (NumTok.mk false ['2', '0', '0'] []).val = 200 := by
      norm_num [NumTok.val, show digitsToNat ['2', '0', '0'] = 200 from by decide,
        show digitsToNat ([] : List Char) = 0 from by decide]
    have hlng : (NumTok.mk false ['0'] []).val = 0 := by
      norm_num [NumTok.val, show digitsToNat ['0'] = 0 from by decide,
        show digitsToNat ([] : List Char) = 0 from by decide]
    simp only [parseLocationInput, hm, hlat, hlng]
    rw [if_neg (by norm_num)]

/-- Closed instance of the C7 theorem at input "45.0, -73.0". -/
theorem parseLocationInput_coordinate_fast_path_witness :
    parseLocationInput "45.0, -73.0" = .direct 45 (-73) :=
  (parseLocationInput_coordinate_fast_path "45.0, -73.0"
    { neg := false, intDigits := ['4', '5'], fracDigits := ['0'] }
    { neg := true, intDigits := ['7', '3'], fracDigits := ['0'] }
    (by decide)).2.1

/-! ## Claim C10 — `setMapViewMode` frame -/

/-- C10: every `setMapViewMode` call (any target mode, changed or not)
resets the factory-filter subsidiary id to `null`, and leaves the transit
routes, activity logs, network metrics, network throughput and the
hierarchy untouched. -/
theorem setMapViewMode_filter_reset_frame (viewMode : Level) (st : ServiceState) :
    ((setMapViewMode viewMode st).factoryFilterSubsidiaryId = none)
    ∧ ((setMapViewMode viewMode st).transitRoutes = st.transitRoutes)
    ∧ ((setMapViewMode viewMode st).activityLogs = st.activityLogs)
    ∧ ((setMapViewMode viewMode st).networkMetrics = st.networkMetrics)
    ∧ ((setMapViewMode viewMode st).networkThroughput = st.networkThroughput)
    ∧ ((setMapViewMode viewMode st).parentGroups = st.parentGroups) := by
  refine ⟨?_, ?_, ?_, ?_, ?_, ?_⟩ <;>
    (unfold setMapViewMode
     rcases st.selectedEntity with _ | sel
     · simp
     · rcases viewMode with _ | _ | _ <;> dsimp only <;> split_ifs <;>
         (try split) <;> simp)

/-! ## Claim C9 — view-mode side effect of `selectEntity` -/

/-- C9 (amended): a subsidiary-level selection made while the view mode is
not `subsidiary` is rejected before normalization — `selectEntity` changes
nothing at all; otherwise, a normalized factory selection made from
subsidiary view keeps the view mode at `subsidiary`, and in every other
normalized case the view mode becomes the normalized selection's level. -/
theorem selectEntity_view_mode_effect :
    (∀ (st : ServiceState) (sel : FleetSelection),
        sel.level = Level.subsidiary → st.mapViewMode ≠ Level.subsidiary →
        selectEntity (some sel) st = st)
    ∧ (∀ (st : ServiceState) (sel norm : FleetSelection),
        normalizeSelection st.parentGroups sel = some norm →
        norm.level = Level.factory → st.mapViewMode = Level.subsidiary →
        (selectEntity (some sel) st).mapViewMode = Level.subsidiary
          ∧ (selectEntity (some sel) st).selectedEntity = some norm)
    ∧ (∀ (st : ServiceState) (sel norm : FleetSelection),
        normalizeSelection st.parentGroups sel = some norm →
        ¬(norm.level = Level.factory ∧ st.mapViewMode = Level.subsidiary) →
        ¬(sel.level = Level.subsidiary ∧ st.mapViewMode ≠ Level.subsidiary) →
        (selectEntity (some sel) st).mapViewMode = norm.level
          ∧ (selectEntity (some sel) st).selectedEntity = some norm) := by
  refine ⟨?_, ?_, ?_⟩
  · intro st sel h1 h2
    simp [selectEntity, h1, h2]
  · intro st sel norm hnorm hlevel hmode
    have hguard : ¬(sel.level = Level.subsidiary ∧ st.mapViewMode ≠ Level.subsidiary) := by
      simp [hmode]
    simp [selectEntity, hguard, hnorm, hlevel, hmode]
  · intro st sel norm hnorm hkeep hguard
    simp only [selectEntity, if_neg hguard, hnorm]
    simp [hkeep]

/-- C9 counterexample: with view mode `parent`, selecting an existing
subsidiary (it normalizes successfully) is ignored — the view mode stays
`parent` instead of becoming `subsidiary` as the claim requires. -/
theorem selectEntity_subsidiary_guard_cex :
    normalizeSelection demoState.parentGroups demoSelSub ≠ none
    ∧ demoState.mapViewMode = Level.parent
    ∧ selectEntity (some demoSelSub) demoState = demoState
    ∧ (selectEntity (some demoSelSub) demoState).mapViewMode ≠ Level.subsidiary := by
  refine ⟨by decide, rfl, ?_, ?_⟩
  · simp [selectEntity, demoSelSub, demoState]
  · simp [selectEntity, demoSelSub, demoState]

/-- Closed instance of the amended C9 theorem: selecting the parent group
from parent view keeps the selection and sets the mode to its level. -/
theorem selectEntity_view_mode_effect_witness :
    (selectEntity (some demoSelParent) demoState).mapViewMode = Level.parent :=
  (selectEntity_view_mode_effect.2.2 demoState demoSelParent
    { level := .parent, id := "g1", parentGroupId := some "g1"
      subsidiaryId := none, factoryId := none }
    (by decide) (by decide) (by decide)).1

/-! ## Claim C4 — `setMapViewMode('factory')` selection carry-over -/

/-- C4 (amended): switching to factory view with a parent-level selection
carrying no factory id re-homes the selection to the first factory of the
parent's first subsidiary (ancestor ids taken from that factory) — but a
subsidiary-level selection is left unchanged by the early return, not
re-homed to the subsidiary's first factory. -/
theorem setMapViewMode_factory_fallback :
    (∀ (st : ServiceState) (sel : FleetSelection) (f : FactoryLocation),
        st.selectedEntity = some sel → sel.level = Level.parent →
        strTruthy sel.factoryId = false →
        getFirstFactoryForSelection st.parentGroups sel = some f →
        (setMapViewMode Level.factory st).selectedEntity
            = some { level := .factory, id := f.id
                     parentGroupId := some f.parentGroupId
                     subsidiaryId := some f.subsidiaryId
                     factoryId := some f.id }
          ∧ (setMapViewMode Level.factory st).mapViewMode = Level.factory)
    ∧ (∀ (st : ServiceState) (sel : FleetSelection),
        st.selectedEntity = some sel → sel.level = Level.subsidiary →
        (setMapViewMode Level.factory st).selectedEntity = st.selectedEntity
          ∧ (setMapViewMode Level.factory st).mapViewMode = Level.factory) := by
  constructor
  · intro st sel f hsel hlevel hfid hfall
    simp [setMapViewMode, hsel, hlevel, hfid, hfall]
  · intro st sel hsel hlevel
    simp [setMapViewMode, hsel, hlevel]

/-- C4 counterexample: in subsidiary view with subsidiary "s1" selected
(which has a first factory, "f1"), switching to factory view leaves the
subsidiary selected — the selection is not re-homed to the first descendant
factory claimed. -/
theorem setMapViewMode_factory_subsidiary_cex :
    (setMapViewMode Level.factory demoStateSubSel).selectedEntity = some demoSelSub
    ∧ demoSelSub.level ≠ Level.factory
    ∧ getFirstFactoryForSelection demoStateSubSel.parentGroups demoSelSub
        = some demoFactoryTen := by
  refine ⟨?_, by decide, by decide⟩
  simp [setMapViewMode, demoStateSubSel, demoState, demoSelSub]

/-- Closed instance of the amended C4 theorem at `demoState`. -/
theorem setMapViewMode_factory_fallback_witness :
    (setMapViewMode Level.factory demoState).selectedEntity
      = some { level := .factory, id := "f1", parentGroupId := some "g1"
               subsidiaryId := some "s1", factoryId := some "f1" } := by
  have h := (setMapViewMode_factory_fallback.1 demoState demoSelParent demoFactoryTen
    rfl rfl rfl (by decide)).1
  simpa [demoFactoryTen] using h

/-- C5 (amended): `addFactory` with an unknown parent group or unknown
subsidiary, and `updateHubStatus` with an unknown owning group or unknown
hub code, leave the state completely unchanged; but `addSubsidiary` with an
unknown parent group is NOT a no-op — it auto-creates that parent group and
appends it to the hierarchy. -/
theorem crud_missing_target_no_op :
    (∀ (factory : FactoryLocation) (st : ServiceState),
        st.parentGroups.find? (fun g => g.id == factory.parentGroupId) = none →
        addFactory factory st = st)
    ∧ (∀ (factory : FactoryLocation) (st : ServiceState) (parent : ParentGroup),
        st.parentGroups.find? (fun g => g.id == factory.parentGroupId) = some parent →
        parent.subsidiaries.find? (fun s => s.id == factory.subsidiaryId) = none →
        addFactory factory st = st)
    ∧ (∀ (subsidiaryId hubCode : String) (updates : HubUpdates) (st : ServiceState),
        st.parentGroups.find?
            (fun g => g.subsidiaries.any (fun s => s.id == subsidiaryId)) = none →
        updateHubStatus subsidiaryId hubCode updates st = st)
    ∧ (∀ (subsidiaryId hubCode : String) (updates : HubUpdates) (st : ServiceState)
          (parent : ParentGroup) (subsidiary : SubsidiaryCompany),
        st.parentGroups.find?
            (fun g => g.subsidiaries.any (fun s => s.id == subsidiaryId)) = some parent →
        parent.subsidiaries.find? (fun s => s.id == subsidiaryId) = some subsidiary →
        subsidiary.hubs.any (fun h => h.code == hubCode) = false →
        updateHubStatus subsidiaryId hubCode updates st = st)
    ∧ (∀ (subsidiary : SubsidiaryCompany) (st : ServiceState),
        st.parentGroups.find? (fun g => g.id == subsidiary.parentGroupId) = none →
        (addSubsidiary subsidiary st).parentGroups
          = st.parentGroups ++
            [{ id := subsidiary.parentGroupId
               name := subsidiary.parentGroupId.toUpper
               status := "ACTIVE"
               subsidiaries :=
                 [{ subsidiary with
                    metrics := computeMetricsFromFactories subsidiary.factories }]
               metrics := computeMetricsFromSubsidiaries
                 [{ subsidiary with
                    metrics := computeMetricsFromFactories subsidiary.factories }] }]) := by
  refine ⟨?_, ?_, ?_, ?_, ?_⟩
  · intro factory st h
    simp [addFactory, h]
  · intro factory st parent h1 h2
    simp [addFactory, h1, h2]
  · intro subsidiaryId hubCode updates st h
    simp [updateHubStatus, h]
  · intro subsidiaryId hubCode updates st parent subsidiary h1 h2 h3
    simp [updateHubStatus, h1, h2, h3]
  · intro subsidiary st h
    simp [addSubsidiary, h]

/-- C5 counterexample: adding a subsidiary whose declared parent group does
not exist changes the hierarchy (a new parent group is created) instead of
being a no-op. -/
theorem addSubsidiary_missing_parent_not_noop :
    demoState.parentGroups.find?
        (fun g => g.id == demoOrphanSubsidiary.parentGroupId) = none
    ∧ (addSubsidiary demoOrphanSubsidiary demoState).parentGroups
        ≠ demoState.parentGroups := by
  have hfind : demoState.parentGroups.find?
      (fun g => g.id == demoOrphanSubsidiary.parentGroupId) = none := by decide
  refine ⟨hfind, ?_⟩
  intro hcontra
  simp only [addSubsidiary, hfind] at hcontra
  have hlen := congrArg List.length hcontra
  simp at hlen

/-- Closed instance of the amended C5 theorem: adding an orphan factory to
`demoState` is a no-op. -/
theorem crud_missing_target_no_op_witness :
    addFactory demoOrphanFactory demoState = demoState :=
  crud_missing_target_no_op.1 demoOrphanFactory demoState (by decide)

/-! ## Claim C6 — `deleteSubsidiary` -/

theorem filter_length_eq_all {α : Type} {p : α → Bool} {l : List α}
    (h : (l.filter p).length = l.length) : ∀ x ∈ l, p x := by
  have heq : l.filter p = l := (l.filter_sublist).eq_of_length h
  exact fun x hx => List.of_mem_filter (heq ▸ hx)

/-- C6: for an existing subsidiary id, `deleteSubsidiary` removes every
subsidiary with that id from the hierarchy, keeps exactly the activity-log
entries that neither carry the deleted subsidiary's id nor the id of one of
its factories, and — when the current selection referenced the deleted
subsidiary — re-homes the selection to the subsidiary's parent group at
level `parent` and switches the view mode to `parent`, clearing the
selection instead when the parent-group id is empty. -/
theorem deleteSubsidiary_spec (subsidiaryId : String) (st : ServiceState)
    (removed : SubsidiaryCompany)
    (hfind : (subsidiariesOf st.parentGroups).find?
        (fun s => s.id == subsidiaryId) = some removed) :
    (∀ g ∈ (deleteSubsidiary subsidiaryId st).parentGroups,
        ∀ s ∈ g.subsidiaries, s.id ≠ subsidiaryId)
    ∧ ((deleteSubsidiary subsidiaryId st).activityLogs
        = st.activityLogs.filter (fun log =>
            !(log.subsidiaryId == some subsidiaryId)
              && !((removed.factories.map (·.id)).contains log.factoryId)))
    ∧ (((deleteSubsidiary subsidiaryId st).selectedEntity,
        (deleteSubsidiary subsidiaryId st).mapViewMode)
        = match st.selectedEntity with
          | some selection =>
            if selection.subsidiaryId = some subsidiaryId
                ∨ selection.id = subsidiaryId then
              if removed.parentGroupId ≠ "" then
                (some { level := .parent, id := removed.parentGroupId
                        parentGroupId := some removed.parentGroupId
                        subsidiaryId := none, factoryId := none }, Level.parent)
              else (none, st.mapViewMode)
            else (st.selectedEntity, st.mapViewMode)
          | none => (st.selectedEntity, st.mapViewMode)) := by
  refine ⟨?_, ?_, ?_⟩
  · intro g hg s hs
    simp only [deleteSubsidiary, hfind] at hg
    rcases List.mem_map.1 hg with ⟨g0, hg0, rfl⟩
    split at hs
    · rename_i hlen
      have hp := filter_length_eq_all hlen s hs
      intro hid
      simp [hid] at hp
    · have hp := (List.mem_filter.1 hs).2
      intro hid
      simp [hid] at hp
  · simp only [deleteSubsidiary, hfind]
  · simp only [deleteSubsidiary, hfind]

/-- Closed instance of the C6 theorem: deleting "s1" while it is selected
re-homes the selection to parent group "g1" in parent view. -/
theorem deleteSubsidiary_spec_witness :
    ((deleteSubsidiary "s1" demoStateSubSel).selectedEntity,
      (deleteSubsidiary "s1" demoStateSubSel).mapViewMode)
      = (some { level := .parent, id := "g1", parentGroupId := some "g1"
                subsidiaryId := none, factoryId := none }, Level.parent) := by
  have h := (deleteSubsidiary_spec "s1" demoStateSubSel demoSubsidiary (by decide)).2.2
  simpa [demoStateSubSel, demoState, demoSelSub, demoSubsidiary] using h

theorem mem_updateFirst {α : Type} {p : α → Bool} {f : α → α} {x : α} :
    ∀ {l : List α}, x ∈ updateFirst p f l → x ∈ l ∨ ∃ y ∈ l, x = f y := by
  intro l
  induction l with
  | nil => intro h; simp [updateFirst] at h
  | cons a as ih =>
    intro h
    by_cases hp : p a = true
    · simp only [updateFirst, if_pos hp] at h
      rcases List.mem_cons.1 h with h | h
      · exact Or.inr ⟨a, List.mem_cons_self a as, h⟩
      · exact Or.inl (List.mem_cons_of_mem a h)
    · simp only [updateFirst, if_neg hp] at h
      rcases List.mem_cons.1 h with h | h
      · exact Or.inl (h ▸ List.mem_cons_self a as)
      · rcases ih h with h | ⟨y, hy, hxy⟩
        · exact Or.inl (List.mem_cons_of_mem a h)
        · exact Or.inr ⟨y, List.mem_cons_of_mem a hy, hxy⟩

theorem hierarchyConsistent_updateFirst {p : ParentGroup → Bool}
    {f : ParentGroup → ParentGroup} {groups : List ParentGroup}
    (h : hierarchyConsistent groups)
    (hf : ∀ g ∈ groups, groupConsistent g → groupConsistent (f g)) :
    hierarchyConsistent (updateFirst p f groups) := by
  intro g hg
  rcases mem_updateFirst hg with hg | ⟨y, hy, rfl⟩
  · exact h g hg
  · exact hf y hy (h y hy)

theorem hierarchyConsistent_map {f : ParentGroup → ParentGroup}
    {groups : List ParentGroup} (h : hierarchyConsistent groups)
    (hf : ∀ g ∈ groups, groupConsistent g → groupConsistent (f g)) :
    hierarchyConsistent (groups.map f) := by
  intro g hg
  rcases List.mem_map.1 hg with ⟨g0, hg0, rfl⟩
  exact hf g0 hg0 (h g0 hg0)

theorem updateSubsidiaryFound_preserves (subsidiary : SubsidiaryCompany)
    (st : ServiceState) (h : hierarchyConsistent st.parentGroups) :
    hierarchyConsistent (updateSubsidiaryFound subsidiary st).parentGroups := by
  refine hierarchyConsistent_updateFirst h ?_
  intro g hg hgc
  refine ⟨rfl, ?_⟩
  intro s hs
  rcases mem_updateFirst hs with hs | ⟨y, _, rfl⟩
  · exact hgc.2 s hs
  · rfl

theorem addSubsidiary_preserves (subsidiary : SubsidiaryCompany)
    (st : ServiceState) (h : hierarchyConsistent st.parentGroups) :
    hierarchyConsistent (addSubsidiary subsidiary st).parentGroups := by
  rcases hfind : st.parentGroups.find? (fun g => g.id == subsidiary.parentGroupId)
    with _ | parent
  · simp only [addSubsidiary, hfind]
    intro g hg
    rcases List.mem_append.1 hg with hg | hg
    · exact h g hg
    · simp only [List.mem_singleton] at hg
      subst hg
      refine ⟨rfl, ?_⟩
      intro s hs
      simp only [List.mem_singleton] at hs
      subst hs
      rfl
  · by_cases hex : parent.subsidiaries.any (fun s => s.id == subsidiary.id) = true
    · simp only [addSubsidiary, hfind, hex, if_true]
      exact updateSubsidiaryFound_preserves _ st h
    · simp only [addSubsidiary, hfind, hex, if_false]
      refine hierarchyConsistent_updateFirst h ?_
      intro g hg hgc
      refine ⟨rfl, ?_⟩
      intro s hs
      rcases List.mem_append.1 hs with hs | hs
      · exact hgc.2 s hs
      · simp only [List.mem_singleton] at hs
        subst hs
        rfl

theorem updateSubsidiary_preserves (subsidiary : SubsidiaryCompany)
    (st : ServiceState) (h : hierarchyConsistent st.parentGroups) :
    hierarchyConsistent (updateSubsidiary subsidiary st).parentGroups := by
  rcases hfind : st.parentGroups.find? (fun g => g.id == subsidiary.parentGroupId)
    with _ | parent
  · simp only [updateSubsidiary, hfind]
    exact addSubsidiary_preserves subsidiary st h
  · by_cases hex : parent.subsidiaries.any (fun s => s.id == subsidiary.id) = true
    · simp only [updateSubsidiary, hfind, hex, if_true]
      exact updateSubsidiaryFound_preserves subsidiary st h
    · simp only [updateSubsidiary, hfind, hex, if_false]
      exact addSubsidiary_preserves subsidiary st h

theorem updateFactoryFound_preserves (factory : FactoryLocation)
    (st : ServiceState) (h : hierarchyConsistent st.parentGroups) :
    hierarchyConsistent (updateFactoryFound factory st).parentGroups := by
  refine hierarchyConsistent_updateFirst h ?_
  intro g hg hgc
  refine ⟨rfl, ?_⟩
  intro s hs
  rcases mem_updateFirst hs with hs | ⟨y, hy, rfl⟩
  · exact hgc.2 s hs
  · rfl

theorem addFactory_preserves (factory : FactoryLocation)
    (st : ServiceState) (h : hierarchyConsistent st.parentGroups) :
    hierarchyConsistent (addFactory factory st).parentGroups := by
  rcases hfind : st.parentGroups.find? (fun g => g.id == factory.parentGroupId)
    with _ | parent
  · simpa only [addFactory, hfind] using h
  · rcases hsub : parent.subsidiaries.find? (fun s => s.id == factory.subsidiaryId)
      with _ | subsidiary
    · simpa only [addFactory, hfind, hsub] using h
    · by_cases hex : subsidiary.factories.any (fun f => f.id == factory.id) = true
      · simp only [addFactory, hfind, hsub, hex, if_true]
        exact updateFactoryFound_preserves factory st h
      · simp only [addFactory, hfind, hsub, hex, if_false]
        refine hierarchyConsistent_updateFirst h ?_
        intro g hg hgc
        refine ⟨rfl, ?_⟩
        intro s hs
        rcases mem_updateFirst hs with hs | ⟨y, hy, rfl⟩
        · exact hgc.2 s hs
        · rfl

theorem updateFactory_preserves (factory : FactoryLocation)
    (st : ServiceState) (h : hierarchyConsistent st.parentGroups) :
    hierarchyConsistent (updateFactory factory st).parentGroups := by
  rcases hfind : st.parentGroups.find? (fun g => g.id == factory.parentGroupId)
    with _ | parent
  · simpa only [updateFactory, hfind] using h
  · rcases hsub : parent.subsidiaries.find? (fun s => s.id == factory.subsidiaryId)
      with _ | subsidiary
    · simpa only [updateFactory, hfind, hsub] using h
    · by_cases hex : subsidiary.factories.any (fun f => f.id == factory.id) = true
      · simp only [updateFactory, hfind, hsub, hex, if_true]
        exact updateFactoryFound_preserves factory st h
      · simp only [updateFactory, hfind, hsub, hex, if_false]
        exact addFactory_preserves factory st h

theorem updateSubsidiaryDetails_preserves (subsidiaryId : String)
    (updates : SubsidiaryUpdates) (st : ServiceState)
    (h : hierarchyConsistent st.parentGroups) :
    hierarchyConsistent (updateSubsidiaryDetails subsidiaryId updates st).parentGroups := by
  refine hierarchyConsistent_map h ?_
  intro g hg hgc
  split
  · refine ⟨rfl, ?_⟩
    intro s hs
    rcases List.mem_map.1 hs with ⟨s0, hs0, rfl⟩
    split
    · exact hgc.2 s0 hs0
    · exact hgc.2 s0 hs0
  · exact hgc

theorem updateFactoryDetails_preserves (factoryId : String)
    (updates : FactoryUpdates) (st : ServiceState)
    (h : hierarchyConsistent st.parentGroups) :
    hierarchyConsistent (updateFactoryDetails factoryId updates st).parentGroups := by
  refine hierarchyConsistent_map h ?_
  intro g hg hgc
  split
  · refine ⟨rfl, ?_⟩
    intro s hs
    rcases List.mem_map.1 hs with ⟨s0, hs0, rfl⟩
    split
    · rfl
    · exact hgc.2 s0 hs0
  · exact hgc

theorem deleteSubsidiary_preserves (subsidiaryId : String) (st : ServiceState)
    (h : hierarchyConsistent st.parentGroups) :
    hierarchyConsistent (deleteSubsidiary subsidiaryId st).parentGroups := by
  rcases hfind : (subsidiariesOf st.parentGroups).find? (fun s => s.id == subsidiaryId)
    with _ | removed
  · simpa only [deleteSubsidiary, hfind] using h
  · simp only [deleteSubsidiary, hfind]
    refine hierarchyConsistent_map h ?_
    intro g hg hgc
    split
    · exact hgc
    · exact ⟨rfl, fun s hs => hgc.2 s (List.mem_filter.1 hs).1⟩

theorem deleteFactory_preserves (factoryId : String) (st : ServiceState)
    (h : hierarchyConsistent st.parentGroups) :
    hierarchyConsistent (deleteFactory factoryId st).parentGroups := by
  by_cases howners : (st.parentGroups.flatMap (fun group =>
      group.subsidiaries.filterMap (fun subsidiary =>
        if subsidiary.factories.any (fun f => f.id == factoryId) then
          some (group.id, subsidiary.id)
        else none))).isEmpty = true
  · simpa only [deleteFactory, dif_pos howners] using h
  · simp only [deleteFactory, dif_neg howners]
    refine hierarchyConsistent_map h ?_
    intro g hg hgc
    split
    · refine ⟨rfl, ?_⟩
      intro s hs
      rcases List.mem_map.1 hs with ⟨s0, hs0, rfl⟩
      split
      · rfl
      · exact hgc.2 s0 hs0
    · exact hgc

theorem updateHubStatus_preserves (subsidiaryId hubCode : String)
    (updates : HubUpdates) (st : ServiceState)
    (h : hierarchyConsistent st.parentGroups) :
    hierarchyConsistent (updateHubStatus subsidiaryId hubCode updates st).parentGroups := by
  rcases hfind : st.parentGroups.find?
      (fun g => g.subsidiaries.any (fun s => s.id == subsidiaryId)) with _ | parent
  · simpa only [updateHubStatus, hfind] using h
  · rcases hsub : parent.subsidiaries.find? (fun s => s.id == subsidiaryId)
      with _ | subsidiary
    · simpa only [updateHubStatus, hfind, hsub] using h
    · by_cases hex : subsidiary.hubs.any (fun hb => hb.code == hubCode) = true
      · simp only [updateHubStatus, hfind, hsub, hex, if_true]
        refine hierarchyConsistent_updateFirst h ?_
        intro g hg hgc
        refine ⟨rfl, ?_⟩
        intro s hs
        rcases mem_updateFirst hs with hs | ⟨y, hy, rfl⟩
        · exact hgc.2 s hs
        · exact hgc.2 y hy
      · simpa only [updateHubStatus, hfind, hsub, hex, if_false] using h

/-- C3: every structural mutation — adding, updating or deleting a
subsidiary or factory, patching subsidiary/factory details, or updating a
hub — preserves the invariant that each subsidiary's stored metrics equal
the recomputation over its current factories and each parent group's stored
metrics equal the recomputation over its current subsidiaries. -/
theorem mutations_preserve_metrics_consistency :
    (∀ (s : SubsidiaryCompany) (st : ServiceState),
        hierarchyConsistent st.parentGroups →
        hierarchyConsistent ((addSubsidiary s st).parentGroups))
    ∧ (∀ (s : SubsidiaryCompany) (st : ServiceState),
        hierarchyConsistent st.parentGroups →
        hierarchyConsistent ((updateSubsidiary s st).parentGroups))
    ∧ (∀ (subsidiaryId : String) (updates : SubsidiaryUpdates) (st : ServiceState),
        hierarchyConsistent st.parentGroups →
        hierarchyConsistent ((updateSubsidiaryDetails subsidiaryId updates st).parentGroups))
    ∧ (∀ (subsidiaryId : String) (st : ServiceState),
        hierarchyConsistent st.parentGroups →
        hierarchyConsistent ((deleteSubsidiary subsidiaryId st).parentGroups))
    ∧ (∀ (f : FactoryLocation) (st : ServiceState),
        hierarchyConsistent st.parentGroups →
        hierarchyConsistent ((addFactory f st).parentGroups))
    ∧ (∀ (f : FactoryLocation) (st : ServiceState),
        hierarchyConsistent st.parentGroups →
        hierarchyConsistent ((updateFactory f st).parentGroups))
    ∧ (∀ (factoryId : String) (updates : FactoryUpdates) (st : ServiceState),
        hierarchyConsistent st.parentGroups →
        hierarchyConsistent ((updateFactoryDetails factoryId updates st).parentGroups))
    ∧ (∀ (factoryId : String) (st : ServiceState),
        hierarchyConsistent st.parentGroups →
        hierarchyConsistent ((deleteFactory factoryId st).parentGroups))
    ∧ (∀ (subsidiaryId hubCode : String) (updates : HubUpdates) (st : ServiceState),
        hierarchyConsistent st.parentGroups →
        hierarchyConsistent ((updateHubStatus subsidiaryId hubCode updates st).parentGroups)) :=
  ⟨addSubsidiary_preserves, updateSubsidiary_preserves,
    updateSubsidiaryDetails_preserves, deleteSubsidiary_preserves,
    addFactory_preserves, updateFactory_preserves,
    updateFactoryDetails_preserves, deleteFactory_preserves,
    updateHubStatus_preserves⟩

/-- Closed instance of C3: `demoState` is consistent, and stays consistent
after a hub-status update on "s1"/"H1". -/
theorem mutations_preserve_metrics_consistency_witness :
    hierarchyConsistent demoState.parentGroups
    ∧ hierarchyConsistent
        ((updateHubStatus "s1" "H1" { code := none, status := some "PAUSED" }
          demoState).parentGroups) := by
  have hcons : hierarchyConsistent demoState.parentGroups := by
    intro g hg
    simp only [demoState, List.mem_singleton] at hg
    subst hg
    refine ⟨?_, ?_⟩
    · norm_num [demoGroup, demoSubsidiary, demoFactoryTen,
        computeMetricsFromSubsidiaries, jsOr1, jsRound10]
    · intro s hs
      simp only [demoGroup, List.mem_singleton] at hs
      subst hs
      norm_num [subsidiaryConsistent, demoSubsidiary, demoFactoryTen,
        computeMetricsFromFactories, jsOr1, jsRound10]
  exact ⟨hcons,
    mutations_preserve_metrics_consistency.2.2.2.2.2.2.2.2
      "s1" "H1" { code := none, status := some "PAUSED" } demoState hcons⟩

end WarRoom
